import Mathlib

set_option maxHeartbeats 1000000

/-!
Shallow embedding of the password-record checker (src/src/main.rs).

The program parses lines of the shape `<low>-<high> <letter>: <password>`
with the regex `^(?P<from>\d+)-(?P<to>\d+)\s(?P<letter>\w):\s(?P<password>.+)$`,
and for each parsed record evaluates two rules:
an occurrence-count range check (`old_policy`) and a position-xor check
(`new_policy`).  The driver folds per-line results into two running totals.

Character classes are modelled on their ASCII fragments (the regex crate
uses Unicode classes, but `str::parse::<u64>` accepts only ASCII digits and
every input of interest here is ASCII).
-/

/-- ASCII fragment of the regex class `\d`. -/
def isDigitA (c : Char) : Bool := c.isDigit

/-- ASCII fragment of the regex class `\s`:
space, tab, line feed, vertical tab, form feed, carriage return. -/
def isWsA (c : Char) : Bool :=
  c == ' ' || c == '\t' || c == '\n' || c == '\x0b' || c == '\x0c' || c == '\r'

/-- ASCII fragment of the regex class `\w`: letters, digits and underscore. -/
def isWordA (c : Char) : Bool := c.isAlphanum || c == '_'

/-- Numeric value of a digit string, as `str::parse::<u64>` computes it. -/
def natOfDigits (ds : List Char) : Nat :=
  ds.foldl (fun a c => 10 * a + (c.toNat - 48)) 0

/-- Model of `caps[..].parse::<u64>()` on a nonempty all-digit capture:
it fails exactly when the value overflows `u64`. -/
def parseU64 (ds : List Char) : Option Nat :=
  if natOfDigits ds < 2 ^ 64 then some (natOfDigits ds) else none

/-- The `Policy` struct: `from` and `to` are `u64` fields (modelled as `Nat`,
with the `< 2^64` bound enforced where the values are produced by
`parseU64`); `letter` is a `char`. -/
structure Policy where
  from_ : Nat
  to_ : Nat
  letter : Char
deriving DecidableEq, Repr

/-- The `Record` struct: a policy plus the password (its character list). -/
structure Record where
  policy : Policy
  password : List Char
deriving DecidableEq, Repr

/-- Model of `Parser::parse`: match the anchored regex
`^(\d+)-(\d+)\s(\w):\s(.+)$` against the line, then parse the two integer
captures with `parse::<u64>`.  `none` models `Err(..)`.  The greedy `\d+`
groups consume maximal digit runs (`takeWhile`/`dropWhile`); this is the only
possible match because `-` and `\s` never match a digit; `.` matches every
character except the line feed, and `$` anchors at the end of the line. -/
def parseLine (cs : List Char) : Option Record :=
  let d1 := cs.takeWhile isDigitA
  match cs.dropWhile isDigitA with
  | '-' :: r2 =>
    if d1.isEmpty then none else
    let d2 := r2.takeWhile isDigitA
    match r2.dropWhile isDigitA with
    | w1 :: l :: ':' :: w2 :: rest =>
      if d2.isEmpty then none else
      if isWsA w1 && isWordA l && isWsA w2 && !rest.isEmpty
          && rest.all (fun c => c != '\n') then
        match parseU64 d1, parseU64 d2 with
        | some f, some t => some ⟨⟨f, t, l⟩, rest⟩
        | _, _ => none
      else none
    | _ => none
  | _ => none

/-- The count-range rule (`old_policy` in `Record::validate`):
`count >= from && count <= to` where `count` is the number of characters of
the password equal to `letter`. -/
def old_policy (r : Record) : Bool :=
  let count := (r.password.filter (fun c => c == r.policy.letter)).length
  decide (r.policy.from_ ≤ count) && decide (count ≤ r.policy.to_)

/-- One side of the position-xor rule:
`char_vec.len() as u64 >= p && char_vec[(p - 1) as usize] == letter`.
The `&&` is short-circuiting, so when `len < p` the index is never touched
and the side is `false`.  When `len ≥ p` the index `(p - 1) as usize` is
evaluated: for `p = 0` the `u64` subtraction underflows (a panic in a debug
build; in a release build it wraps to `2^64 - 1`, which is out of bounds for
any real string) — both outcomes are a panic, modelled as `none`. -/
def posCheck (cv : List Char) (letter : Char) (p : Nat) : Option Bool :=
  if cv.length ≥ p then
    if p = 0 then none
    else if h : p - 1 < cv.length then some (cv.get ⟨p - 1, h⟩ == letter)
    else none
  else some false

/-- The position-xor rule (`new_policy` in `Record::validate`):
the left side (at `from`) is evaluated first, then the right side (at `to`),
then compared with `!=` (boolean xor).  A panic on either side propagates. -/
def new_policy (r : Record) : Option Bool := do
  let a ← posCheck r.password r.policy.letter r.policy.from_
  let b ← posCheck r.password r.policy.letter r.policy.to_
  pure (a != b)

/-- Model of `Record::validate`: the pair `(old_policy, new_policy)`.
`none` models a panic while computing the position-xor side. -/
def validate (r : Record) : Option (Bool × Bool) :=
  (new_policy r).map (fun n => (old_policy r, n))

/-- Specification-side position predicate: the 1-based position `p` of the
password holds the target character; a position outside `1..=len` does not
match. -/
def posHoldsSpec (cv : List Char) (letter : Char) (p : Nat) : Bool :=
  if h : 0 < p ∧ p ≤ cv.length then cv.get ⟨p - 1, by omega⟩ == letter
  else false

/-- Specification-side position-xor rule: exactly one of the positions
`from` and `to` holds the target character. -/
def posXorSpec (r : Record) : Bool :=
  posHoldsSpec r.password r.policy.letter r.policy.from_
    != posHoldsSpec r.password r.policy.letter r.policy.to_
/-- Per-line contribution in `main`'s iterator chain: an unreadable line
(`Err` from `io::Lines`) or an unparseable line is mapped by
`map_or((0u64, 0u64), ..)` to `(0, 0)`; a parsed record is validated and
scores 1 on each side whose rule holds.  `none` models a panic inside
`Record::validate`. -/
def lineScore (lr : Except String (List Char)) : Option (Nat × Nat) :=
  match lr with
  | .error _ => some (0, 0)
  | .ok line =>
    match parseLine line with
    | none => some (0, 0)
    | some r =>
      (validate r).map (fun p =>
        ((if p.1 then 1 else 0), (if p.2 then 1 else 0)))

/-- One step of the `fold` in `main`, adding a line's score to the
accumulator; a panic (`none`) propagates. -/
def tallyStep (acc : Option (Nat × Nat)) (lr : Except String (List Char)) :
    Option (Nat × Nat) := do
  let a ← acc
  let s ← lineScore lr
  pure (a.1 + s.1, a.2 + s.2)

/-- The two running totals `main` computes over the line-read results,
starting from `(0u64, 0u64)`.  `none` models a panic part way through. -/
def mainTotals (lrs : List (Except String (List Char))) : Option (Nat × Nat) :=
  lrs.foldl tallyStep (some (0, 0))

/-- Model of `main`: `args` is the full argument vector (program name
first); `file` is the outcome of opening the input file (`Err` when the
open fails), holding the per-line read results.  With fewer than two
arguments the program returns `Err("filename argument required")`; with an
unopenable file it propagates the open error; otherwise it folds the lines
into the two totals (the inner `none` modelling a panic). -/
def mainRun (args : List String)
    (file : Except String (List (Except String (List Char)))) :
    Except String (Option (Nat × Nat)) :=
  match args with
  | _ :: _ :: _ =>
    match file with
    | .error e => .error e
    | .ok lrs => .ok (mainTotals lrs)
  | _ => .error "filename argument required"

/-- A line-read result that is unreadable or fails to parse. -/
def badLine (lr : Except String (List Char)) : Prop :=
  (∃ e, lr = .error e) ∨ (∃ line, lr = .ok line ∧ parseLine line = none)

/-- A line-read result that parses and whose record passes the count-range
rule. -/
def passOld (lr : Except String (List Char)) : Bool :=
  match lr with
  | .ok line =>
    match parseLine line with
    | some r => old_policy r
    | none => false
  | .error _ => false

/-- A line-read result that parses and whose record passes the position-xor
rule. -/
def passNew (lr : Except String (List Char)) : Bool :=
  match lr with
  | .ok line =>
    match parseLine line with
    | some r => (new_policy r).getD false
    | none => false
  | .error _ => false

/-- For a position `p ≥ 1` the implementation side never panics and agrees
with the specification-side position predicate. -/
theorem posCheck_eq_spec (cv : List Char) (letter : Char) (p : Nat)
    (h : 1 ≤ p) : posCheck cv letter p = some (posHoldsSpec cv letter p) := by
  simp only [posCheck, posHoldsSpec]
  split
  · next hge =>
    rw [if_neg (by omega)]
    rw [dif_pos (by omega : p - 1 < cv.length)]
    rw [dif_pos (⟨by omega, by omega⟩ : 0 < p ∧ p ≤ cv.length)]
  · next hlt =>
    rw [dif_neg (by omega)]

/-- For `from ≥ 1` and `to ≥ 1` the position-xor rule returns the
specification-side xor. -/
theorem new_policy_eq_spec (r : Record) (h1 : 1 ≤ r.policy.from_)
    (h2 : 1 ≤ r.policy.to_) : new_policy r = some (posXorSpec r) := by
  simp only [new_policy, posXorSpec, posCheck_eq_spec _ _ _ h1,
    posCheck_eq_spec _ _ _ h2, Option.bind_eq_bind, Option.some_bind]
  rfl

/-- C1 counterexample: the line `"0-2 b: ab"` is accepted by the parse
pattern (the regex `\d+` matches `0`), exactly one of 1-based positions 0
and 2 of `"ab"` holds `'b'` (position 2 does; position 0 does not exist, so
it does not match), yet the position-xor rule does not return `true` — the
`u64` index computation `from - 1` underflows and the evaluation panics
(`none`) instead of returning a boolean. -/
theorem new_policy_panic_refutes_C1 :
    parseLine ("0-2 b: ab".toList) = some ⟨⟨0, 2, 'b'⟩, "ab".toList⟩ ∧
      posXorSpec ⟨⟨0, 2, 'b'⟩, "ab".toList⟩ = true ∧
      ¬ (new_policy ⟨⟨0, 2, 'b'⟩, "ab".toList⟩ = some true ↔
          posXorSpec ⟨⟨0, 2, 'b'⟩, "ab".toList⟩ = true) := by decide

/-- C1 (amended): for every parsed record whose `from` and `to` are both at
least 1, the position-xor rule returns a boolean, and it returns `true` if
and only if exactly one of the 1-based positions `from` and `to` of the
password holds the target character, a position beyond the password's length
counting as not matching. -/
theorem new_policy_iff_posXorSpec (cs : List Char) (r : Record)
    (hp : parseLine cs = some r) (h1 : 1 ≤ r.policy.from_)
    (h2 : 1 ≤ r.policy.to_) :
    new_policy r = some (posXorSpec r) :=
  new_policy_eq_spec r h1 h2

/-- C1 amended-theorem witness at the line `"1-3 a: abcde"`. -/
theorem new_policy_iff_posXorSpec_witness :
    new_policy ⟨⟨1, 3, 'a'⟩, "abcde".toList⟩
      = some (posXorSpec ⟨⟨1, 3, 'a'⟩, "abcde".toList⟩) :=
  new_policy_iff_posXorSpec ("1-3 a: abcde".toList) ⟨⟨1, 3, 'a'⟩, "abcde".toList⟩
    (by decide) (by decide) (by decide)

/-- C3 counterexample: the line `"0-1 a: a"` is accepted by the parse
pattern and its password is non-empty, yet evaluating the rules panics:
`from = 0` makes the `u64` index `from - 1` underflow, so `validate`
aborts (`none`) instead of treating the position as non-matching. -/
theorem validate_panic_refutes_C3 :
    parseLine ("0-1 a: a".toList) = some ⟨⟨0, 1, 'a'⟩, "a".toList⟩ ∧
      validate ⟨⟨0, 1, 'a'⟩, "a".toList⟩ = none := by decide

/-- C3 (amended): for every parsed record whose `from` and `to` are both at
least 1, evaluating the rules never panics: both rule results are returned,
and a position index beyond the password's length evaluates as non-matching
rather than raising an error. -/
theorem validate_total_C3 (cs : List Char) (r : Record)
    (hp : parseLine cs = some r) (h1 : 1 ≤ r.policy.from_)
    (h2 : 1 ≤ r.policy.to_) :
    validate r = some (old_policy r, posXorSpec r) := by
  simp [validate, new_policy_eq_spec r h1 h2]

/-- C3 amended-theorem witness at the line `"2-9 c: ccccccccc"`, whose
position 9 lies at the very end of the password. -/
theorem validate_total_C3_witness :
    validate ⟨⟨2, 9, 'c'⟩, "ccccccccc".toList⟩
      = some (old_policy ⟨⟨2, 9, 'c'⟩, "ccccccccc".toList⟩,
          posXorSpec ⟨⟨2, 9, 'c'⟩, "ccccccccc".toList⟩) :=
  validate_total_C3 ("2-9 c: ccccccccc".toList) ⟨⟨2, 9, 'c'⟩, "ccccccccc".toList⟩
    (by decide) (by decide) (by decide)


/-- Specification-side parse condition, following the spec's words: the line
matches the shape `<low>-<high> <target>: <password>` — a nonempty run of
decimal digits, a dash, a nonempty run of decimal digits, a whitespace
separator, a single word character, a colon, a whitespace separator, and a
nonempty remainder as the password — and both integers parse as `u64`. -/
def ShapeIntOk (cs : List Char) : Prop :=
  ∃ d1 d2 w1 l w2 rest,
    cs = d1 ++ '-' :: (d2 ++ w1 :: l :: ':' :: w2 :: rest) ∧
    d1 ≠ [] ∧ (∀ c ∈ d1, isDigitA c) ∧ d2 ≠ [] ∧ (∀ c ∈ d2, isDigitA c) ∧
    isWsA w1 = true ∧ isWordA l = true ∧ isWsA w2 = true ∧ rest ≠ [] ∧
    natOfDigits d1 < 2 ^ 64 ∧ natOfDigits d2 < 2 ^ 64

theorem lineScore_badLine (lr : Except String (List Char))
    (h : badLine lr) : lineScore lr = some (0, 0) := by
  rcases h with ⟨e, rfl⟩ | ⟨line, rfl, hp⟩
  · rfl
  · simp [lineScore, hp]

theorem lineScore_eq_passes (lr : Except String (List Char))
    (s : Nat × Nat) (h : lineScore lr = some s) :
    s = ((if passOld lr then 1 else 0), (if passNew lr then 1 else 0)) := by
  match lr with
  | .error e => simp [lineScore] at h; simp [passOld, passNew, ← h]
  | .ok line =>
    match hp : parseLine line with
    | none =>
      simp [lineScore, hp] at h
      simp [passOld, passNew, hp, ← h]
    | some r =>
      simp only [lineScore, hp] at h
      match hv : validate r with
      | none => simp [hv] at h
      | some p =>
        have hn : new_policy r = some p.2 := by
          simp only [validate] at hv
          match hq : new_policy r with
          | none => simp [hq] at hv
          | some b => simp [hq] at hv; simp [← hv]
        have ho : old_policy r = p.1 := by
          simp only [validate, hn] at hv
          simpa using congrArg (fun q => (Option.map Prod.fst q).getD false) hv
        simp [hv] at h
        simp [passOld, passNew, hp, hn, ho, ← h]

theorem tallyStep_none (lr : Except String (List Char)) :
    tallyStep none lr = none := rfl

theorem foldl_tallyStep_none (lrs : List (Except String (List Char))) :
    lrs.foldl tallyStep none = none := by
  induction lrs with
  | nil => rfl
  | cons lr lrs ih => simpa [tallyStep_none] using ih

theorem foldl_tallyStep_counts (lrs : List (Except String (List Char))) :
    ∀ (a t : Nat × Nat), lrs.foldl tallyStep (some a) = some t →
      t = (a.1 + lrs.countP passOld, a.2 + lrs.countP passNew) := by
  induction lrs with
  | nil => intro a t h; simp at h; simp [← h]
  | cons lr lrs ih =>
    intro a t h
    match hs : lineScore lr with
    | none =>
      rw [List.foldl_cons, show tallyStep (some a) lr = none by
        simp [tallyStep, hs]] at h
      rw [foldl_tallyStep_none] at h
      exact absurd h (by simp)
    | some s =>
      rw [List.foldl_cons, show tallyStep (some a) lr
          = some (a.1 + s.1, a.2 + s.2) by simp [tallyStep, hs]] at h
      have := ih _ _ h
      have hse := lineScore_eq_passes lr s hs
      rw [List.countP_cons, List.countP_cons]
      subst hse
      simp only [this, Prod.mk.injEq]
      cases hpo : passOld lr <;> cases hpn : passNew lr <;>
        simp <;> omega

/-- Totals characterisation: when the fold completes, each total counts the
successfully parsed lines whose record passes the corresponding rule. -/
theorem mainTotals_eq_counts (lrs : List (Except String (List Char)))
    (t : Nat × Nat) (h : mainTotals lrs = some t) :
    t = (lrs.countP passOld, lrs.countP passNew) := by
  have := foldl_tallyStep_counts lrs (0, 0) t h
  simpa using this

/-- C6: parsing `"3-11 z: zzzzzdzzzzlzz"` succeeds and yields
`low = 3`, `high = 11`, `target = 'z'`, `password = "zzzzzdzzzzlzz"`. -/
theorem parse_example_C6 :
    parseLine ("3-11 z: zzzzzdzzzzlzz".toList)
      = some ⟨⟨3, 11, 'z'⟩, "zzzzzdzzzzlzz".toList⟩ := by decide

/-- C2: the count-range rule holds exactly when the number of occurrences of
the target character in the password lies between `low` and `high`
inclusive. -/
theorem old_policy_iff_count_in_range (r : Record) :
    old_policy r = true ↔
      r.policy.from_ ≤ r.password.count r.policy.letter ∧
        r.password.count r.policy.letter ≤ r.policy.to_ := by
  simp [old_policy, List.count, List.countP_eq_length_filter]

theorem ws_not_digit (c : Char) (h : isWsA c = true) : isDigitA c = false := by
  simp only [isWsA, Bool.or_eq_true, beq_iff_eq] at h
  rcases h with (((((h | h) | h) | h) | h) | h) <;> subst h <;> decide

theorem parseLine_some_inv (cs : List Char) (r : Record)
    (hp : parseLine cs = some r) :
    ∃ d1 d2 w1 l w2 rest,
      cs = d1 ++ '-' :: (d2 ++ w1 :: l :: ':' :: w2 :: rest) ∧
      d1 ≠ [] ∧ (∀ c ∈ d1, isDigitA c) ∧ d2 ≠ [] ∧ (∀ c ∈ d2, isDigitA c) ∧
      isWsA w1 = true ∧ isWordA l = true ∧ isWsA w2 = true ∧ rest ≠ [] ∧
      (∀ c ∈ rest, c ≠ '\n') ∧
      natOfDigits d1 < 2 ^ 64 ∧ natOfDigits d2 < 2 ^ 64 ∧
      r = ⟨⟨natOfDigits d1, natOfDigits d2, l⟩, rest⟩ := by
  simp only [parseLine] at hp
  split at hp
  case _ r2 heq =>
    split at hp
    · exact absurd hp (by simp)
    · next hne1 =>
      split at hp
      case _ w1 l w2 rest heq2 =>
        split at hp
        · exact absurd hp (by simp)
        · next hne2 =>
          split at hp
          · next hg =>
            split at hp
            case _ f t hf ht =>
              simp only [Bool.and_eq_true] at hg
              obtain ⟨⟨⟨⟨hw1, hl⟩, hw2⟩, hrd⟩, hnl⟩ := hg
              have hf' : natOfDigits (cs.takeWhile isDigitA) < 2 ^ 64 ∧
                  f = natOfDigits (cs.takeWhile isDigitA) := by
                simp only [parseU64] at hf
                split at hf
                · next hb => exact ⟨hb, by injection hf with h; omega⟩
                · exact absurd hf (by simp)
              have ht' : natOfDigits (r2.takeWhile isDigitA) < 2 ^ 64 ∧
                  t = natOfDigits (r2.takeWhile isDigitA) := by
                simp only [parseU64] at ht
                split at ht
                · next hb => exact ⟨hb, by injection ht with h; omega⟩
                · exact absurd ht (by simp)
              have hcs : cs = cs.takeWhile isDigitA ++ '-' :: r2 := by
                rw [← heq, List.takeWhile_append_dropWhile]
              have hr2 : r2 = r2.takeWhile isDigitA ++ w1 :: l :: ':' :: w2 :: rest := by
                rw [← heq2, List.takeWhile_append_dropWhile]
              injection hp with hp'
              refine ⟨cs.takeWhile isDigitA, r2.takeWhile isDigitA, w1, l, w2, rest,
                ?_, by simpa using hne1, fun c hc => List.mem_takeWhile_imp hc,
                by simpa using hne2, fun c hc => List.mem_takeWhile_imp hc,
                hw1, hl, hw2, by simpa using hrd, by simpa using hnl,
                hf'.1, ht'.1, ?_⟩
              · exact hcs.trans (congrArg
                  (fun x => List.takeWhile isDigitA cs ++ '-' :: x) hr2)
              · rw [← hp', hf'.2, ht'.2]
            case _ => exact absurd hp (by simp)
          · exact absurd hp (by simp)
      case _ => exact absurd hp (by simp)
  case _ => exact absurd hp (by simp)

theorem parseLine_of_shape (d1 d2 : List Char) (w1 l w2 : Char)
    (rest : List Char) (h1 : d1 ≠ []) (hd1 : ∀ c ∈ d1, isDigitA c)
    (h2 : d2 ≠ []) (hd2 : ∀ c ∈ d2, isDigitA c) (hw1 : isWsA w1 = true)
    (hl : isWordA l = true) (hw2 : isWsA w2 = true) (hr : rest ≠ [])
    (hnl : ∀ c ∈ rest, c ≠ '\n')
    (hb1 : natOfDigits d1 < 2 ^ 64) (hb2 : natOfDigits d2 < 2 ^ 64) :
    parseLine (d1 ++ '-' :: (d2 ++ w1 :: l :: ':' :: w2 :: rest))
      = some ⟨⟨natOfDigits d1, natOfDigits d2, l⟩, rest⟩ := by
  have hw1d : isDigitA w1 = false := ws_not_digit w1 hw1
  have htw1 : List.takeWhile isDigitA ('-' :: (d2 ++ w1 :: l :: ':' :: w2 :: rest)) = [] :=
    List.takeWhile_cons_of_neg (by decide)
  have hdw1 : List.dropWhile isDigitA ('-' :: (d2 ++ w1 :: l :: ':' :: w2 :: rest))
      = '-' :: (d2 ++ w1 :: l :: ':' :: w2 :: rest) :=
    List.dropWhile_cons_of_neg (by decide)
  have htw2 : List.takeWhile isDigitA (w1 :: l :: ':' :: w2 :: rest) = [] :=
    List.takeWhile_cons_of_neg (by simp [hw1d])
  have hdw2 : List.dropWhile isDigitA (w1 :: l :: ':' :: w2 :: rest)
      = w1 :: l :: ':' :: w2 :: rest :=
    List.dropWhile_cons_of_neg (by simp [hw1d])
  have hall : (rest.all fun c => c != '\n') = true :=
    List.all_eq_true.mpr (fun c hc => by simpa using hnl c hc)
  simp only [parseLine, List.takeWhile_append_of_pos hd1,
    List.dropWhile_append_of_pos hd1, htw1, hdw1, List.append_nil,
    List.takeWhile_append_of_pos hd2, List.dropWhile_append_of_pos hd2,
    htw2, hdw2]
  rw [if_neg (by simpa using h1), if_neg (by simpa using h2),
    if_pos (by simp [hw1, hl, hw2, hall, hr])]
  simp only [parseU64, if_pos hb1, if_pos hb2]

/-- C5: for any input line (lines produced by line-splitting contain no line
feed), the parser returns an error exactly when the line does not match the
shape `<low>-<high> <target>: <password>` with both integers parseable as
`u64`; it never yields a defaulted record, and no whitespace is trimmed
beyond the pattern's own separators (the shape condition describes the
entire line). -/
theorem parse_none_iff_C5 (cs : List Char) (hnl : ∀ c ∈ cs, c ≠ '\n') :
    parseLine cs = none ↔ ¬ ShapeIntOk cs := by
  constructor
  · intro hn hok
    obtain ⟨d1, d2, w1, l, w2, rest, hcs, h1, hd1, h2, hd2, hw1, hl, hw2,
      hr, hb1, hb2⟩ := hok
    have hrnl : ∀ c ∈ rest, c ≠ '\n' := by
      intro c hc
      exact hnl c (by subst hcs; simp [hc])
    have hsome := parseLine_of_shape d1 d2 w1 l w2 rest h1 hd1 h2 hd2 hw1
      hl hw2 hr hrnl hb1 hb2
    rw [← hcs, hn] at hsome
    exact absurd hsome (by simp)
  · intro hno
    match hres : parseLine cs with
    | none => rfl
    | some r =>
      obtain ⟨d1, d2, w1, l, w2, rest, hcs, h1, hd1, h2, hd2, hw1, hl, hw2,
        hr, _, hb1, hb2, _⟩ := parseLine_some_inv cs r hres
      exact absurd ⟨d1, d2, w1, l, w2, rest, hcs, h1, hd1, h2, hd2, hw1, hl,
        hw2, hr, hb1, hb2⟩ hno

/-- C5 witness at the malformed line `"garbage"`. -/
theorem parse_none_iff_C5_witness :
    parseLine ("garbage".toList) = none ↔ ¬ ShapeIntOk ("garbage".toList) :=
  parse_none_iff_C5 ("garbage".toList) (by decide)

/-- C9: every record the parser returns has a non-empty password, and its
target is a single word character. -/
theorem parsed_invariants_C9 (cs : List Char) (r : Record)
    (hp : parseLine cs = some r) :
    r.password ≠ [] ∧ isWordA r.policy.letter = true := by
  obtain ⟨d1, d2, w1, l, w2, rest, hcs, h1, hd1, h2, hd2, hw1, hl, hw2, hr,
    hnl, hb1, hb2, hrec⟩ := parseLine_some_inv cs r hp
  subst hrec
  exact ⟨hr, hl⟩

/-- C9 witness at the line `"5-6 x: yz"`. -/
theorem parsed_invariants_C9_witness :
    (⟨⟨5, 6, 'x'⟩, "yz".toList⟩ : Record).password ≠ [] ∧
      isWordA (⟨⟨5, 6, 'x'⟩, "yz".toList⟩ : Record).policy.letter = true :=
  parsed_invariants_C9 ("5-6 x: yz".toList) ⟨⟨5, 6, 'x'⟩, "yz".toList⟩
    (by decide)

/-- C8: whenever the fold in `main` completes, every unreadable or
unparseable line has contributed exactly `(0, 0)` to the running totals, and
each reported total equals the number of successfully parsed lines whose
record satisfies the corresponding rule. -/
theorem totals_count_C8 (lrs : List (Except String (List Char)))
    (t : Nat × Nat) (h : mainTotals lrs = some t) :
    (∀ lr, badLine lr → lineScore lr = some (0, 0)) ∧
      t.1 = lrs.countP passOld ∧ t.2 = lrs.countP passNew := by
  refine ⟨lineScore_badLine, ?_, ?_⟩ <;> rw [mainTotals_eq_counts lrs t h]

/-- C8 witness on a four-line input holding one unreadable line, one
malformed line, one record passing both rules and one record passing
neither. -/
theorem totals_count_C8_witness :
    (∀ lr, badLine lr → lineScore lr = some (0, 0)) ∧
      (1, 1).1 = List.countP passOld [Except.ok ("1-3 a: abcde".toList),
        Except.error "io", Except.ok ("not a record".toList),
        Except.ok ("1-3 b: cdefg".toList)] ∧
      (1, 1).2 = List.countP passNew [Except.ok ("1-3 a: abcde".toList),
        Except.error "io", Except.ok ("not a record".toList),
        Except.ok ("1-3 b: cdefg".toList)] :=
  totals_count_C8 [Except.ok ("1-3 a: abcde".toList), Except.error "io",
    Except.ok ("not a record".toList), Except.ok ("1-3 b: cdefg".toList)]
    (1, 1) (by decide)

/-- C10: whenever the fold in `main` completes, each total is at most the
number of input lines (each line contributes at most 1 to each side), and
the totals computed in the single forward pass only ever increase as
further lines are processed. -/
theorem totals_bound_C10 (lrs : List (Except String (List Char)))
    (t : Nat × Nat) (h : mainTotals lrs = some t) :
    t.1 ≤ lrs.length ∧ t.2 ≤ lrs.length ∧
      ∀ ext t2, mainTotals (lrs ++ ext) = some t2 →
        t.1 ≤ t2.1 ∧ t.2 ≤ t2.2 := by
  have hc := mainTotals_eq_counts lrs t h
  subst hc
  refine ⟨List.countP_le_length _, List.countP_le_length _, ?_⟩
  intro ext t2 h2
  have hc2 := mainTotals_eq_counts _ _ h2
  subst hc2
  simp [List.countP_append]

/-- C10 witness on a two-line input. -/
theorem totals_bound_C10_witness :
    (2, 1).1 ≤ ([Except.ok ("2-9 c: ccccccccc".toList),
        Except.ok ("1-3 a: abcde".toList)] :
        List (Except String (List Char))).length ∧
      (2, 1).2 ≤ ([Except.ok ("2-9 c: ccccccccc".toList),
        Except.ok ("1-3 a: abcde".toList)] :
        List (Except String (List Char))).length ∧
      ∀ ext t2, mainTotals ([Except.ok ("2-9 c: ccccccccc".toList),
          Except.ok ("1-3 a: abcde".toList)] ++ ext) = some t2 →
        (2, 1).1 ≤ t2.1 ∧ (2, 1).2 ≤ t2.2 :=
  totals_bound_C10 [Except.ok ("2-9 c: ccccccccc".toList),
    Except.ok ("1-3 a: abcde".toList)] (2, 1) (by decide)

/-- C4 counterexample: with a file that opens and holds one unreadable line
and one malformed line, the program neither prints an error nor exits
non-zero: it completes with totals `(0, 0)` — malformed and unreadable
lines are swallowed by `map_or((0u64, 0u64), ..)`, not treated as fatal. -/
theorem malformed_not_fatal_refutes_C4 :
    parseLine ("### not a record ###".toList) = none ∧
      mainRun ["prog", "input.txt"]
        (.ok [Except.error "read failed",
          Except.ok ("### not a record ###".toList)])
        = .ok (some (0, 0)) := ⟨by decide, rfl⟩

/-- C4 (amended): an unreadable or malformed line is not fatal: once the
file opens, the run always completes with totals, the offending line
contributes exactly `(0, 0)` and processing continues — the result is the
one obtained with the line removed.  Only a missing filename argument or a
failed file open makes the program exit with an error. -/
theorem bad_line_not_fatal_C4 (a f : String) (rest : List String)
    (pre post : List (Except String (List Char)))
    (lr : Except String (List Char)) (hbad : badLine lr) :
    mainRun (a :: f :: rest) (.ok (pre ++ lr :: post))
      = .ok (mainTotals (pre ++ post)) := by
  have hz := lineScore_badLine lr hbad
  have hstep : ∀ s, tallyStep s lr = s := by
    intro s
    cases s with
    | none => rfl
    | some x => simp [tallyStep, hz]
  simp only [mainRun]
  congr 1
  simp only [mainTotals, List.foldl_append, List.foldl_cons, hstep]

/-- C4 amended-theorem witness: a malformed line between two good lines. -/
theorem bad_line_not_fatal_C4_witness :
    mainRun ["prog", "in.txt"]
      (.ok ([Except.ok ("1-3 a: abcde".toList)] ++
        Except.ok ("!!!".toList) :: [Except.ok ("1-3 b: cdefg".toList)]))
      = .ok (mainTotals ([Except.ok ("1-3 a: abcde".toList)] ++
        [Except.ok ("1-3 b: cdefg".toList)])) :=
  bad_line_not_fatal_C4 "prog" "in.txt" [] [Except.ok ("1-3 a: abcde".toList)]
    [Except.ok ("1-3 b: cdefg".toList)] (Except.ok ("!!!".toList))
    (Or.inr ⟨"!!!".toList, rfl, by decide⟩)

/-- C7: invoked without a positional argument the program returns
`Err("filename argument required")`, whatever the state of the file system:
the result does not depend on the `file` parameter, so no file is read and
nothing is counted. -/
theorem missing_filename_C7 (args : List String) (h : args.length ≤ 1)
    (file : Except String (List (Except String (List Char)))) :
    mainRun args file = .error "filename argument required" := by
  match args with
  | [] => rfl
  | [a] => rfl
  | a :: b :: r => exact absurd h (by simp)

/-- C7 witness: program name only, a perfectly readable file ignored. -/
theorem missing_filename_C7_witness :
    mainRun ["prog"] (.ok [Except.ok ("1-3 a: abcde".toList)])
      = .error "filename argument required" :=
  missing_filename_C7 ["prog"] (by decide) _
